import Mathlib

/-!
Verification of `luigi/contrib/azure_storage.py` against its specification.

The Python module is embedded shallowly:

* Python byte/character strings become `List Char` (named `Bytes` below), so
  that the slicing, splitting and joining done by the path codec can be
  reasoned about with list lemmas.
* Fallible Python code becomes `Except PyError _`; each `PyError` constructor
  stands for one exception class that can escape the modelled code.
* The Azure SDK blob service held by the client is a read-only oracle
  (`BlockBlobService`) consisting of the two existence predicates the module
  queries; SDK calls that mutate remote state (`delete_blob`,
  `create_blob_from_path`, ...) do not influence any return value within a
  single modelled call and are noted in comments.
* The dynamic attribute lookup of Python, which decides several claims (the module
  calls `put_multipart`, `get_key` and `self.service`, none of which exist on
  `AzureStorageClient`), is embedded as membership in the list of names the
  class actually defines.
-/

namespace AzureStorage

/-- Exceptions that can escape the modelled code.  `indexError`, `valueError`
and `attributeError` are Python built-ins; `invalidDeleteException` and
`fileNotFoundException` are the two classes defined at the top of the module;
`invalidPathError` is the typed invalid-path error named by the specification
(no such class exists anywhere in the source module — it is included only so
that statements can compare against it). -/
inductive PyError where
  | indexError
  | valueError
  | attributeError
  | invalidDeleteException
  | fileNotFoundException
  | invalidPathError
  deriving DecidableEq, Repr

/-- Python strings / byte strings, as lists of characters. -/
abbrev Bytes := List Char

/-- Embedding of `AzureStorageClient._path_to_container_and_blob`.

Python source, line by line:
  `if path[0] == "/": path = path[1:]`    — `path[0]` raises `IndexError` on
                                            the empty string;
  `if path[-1] == "/": path = path[:-1]`  — `path[-1]` raises `IndexError`
                                            when the string is empty here
                                            (which happens exactly for the
                                            one-character input consisting of
                                            a single slash);
  `path_components = path.split("/")`
  `container = path_components[0]`        — `str.split` never returns an empty
                                            list, so this indexing is safe;
  `blob_name = "/".join(path_components[1:])`
  `return container, blob_name`. -/
def path_to_container_and_blob (path : Bytes) : Except PyError (Bytes × Bytes) :=
  match path with
  | [] => .error .indexError
  | c0 :: rest =>
    let p1 : Bytes := if c0 = '/' then rest else c0 :: rest
    match p1.getLast? with
    | none => .error .indexError
    | some cl =>
      let p2 : Bytes := if cl = '/' then p1.dropLast else p1
      let path_components := p2.splitOn '/'
      .ok (path_components.headD [], List.intercalate ['/'] path_components.tail)

/-- Embedding of `AzureStorageClient._is_root`:
`(len(key) == 0) or (key == "/")`. -/
def is_root (key : Bytes) : Bool :=
  (key.length == 0) || (key == ['/'])

/-- The read-only view of the SDK `BlockBlobService` that the module queries:
`exists(container)` and `exists(container, blob_name)`. -/
structure BlockBlobService where
  containerExists : Bytes → Bool
  blobExists : Bytes → Bytes → Bool

/-- Embedding of `AzureStorageClient.exists` (named `existsB` because `exists`
is reserved in Lean): resolve the path, return `False` when the container is
absent, otherwise report whether the blob is present. -/
def existsB (svc : BlockBlobService) (path : Bytes) : Except PyError Bool :=
  match path_to_container_and_blob path with
  | .error e => .error e
  | .ok (container, blob_name) =>
    if svc.containerExists container = false then .ok false
    else if svc.blobExists container blob_name then .ok true
    else .ok false

/-- Embedding of `AzureStorageClient.remove`.  The guard order is the
source order: the early-return on `not self.exists(path)` comes *before* the
root check, so the `InvalidDeleteException` branch is only reachable when
`exists(path)` reported true.  The `delete_blob` SDK call in the final branch
mutates remote state but contributes nothing to the return value. -/
def remove (svc : BlockBlobService) (path : Bytes) : Except PyError Bool :=
  match existsB svc path with
  | .error e => .error e
  | .ok false => .ok false
  | .ok true =>
    match path_to_container_and_blob path with
    | .error e => .error e
    | .ok (container, blob_name) =>
      if is_root blob_name then .error .invalidDeleteException
      else if svc.containerExists container = false then .ok false
      else
        match existsB svc path with
        | .error e => .error e
        | .ok true => .ok true
        | .ok false => .ok false

/-- Embedding of `AzureStorageClient.put`.  Python returns `False` when the
container is missing and falls off the end of the function (returning `None`)
after the `create_blob_from_path` SDK call; the return value is therefore
`Option Bool`, with `none` standing for the `None` of Python. -/
def put (svc : BlockBlobService) (_local_path destination_azure_path : Bytes) :
    Except PyError (Option Bool) :=
  match path_to_container_and_blob destination_azure_path with
  | .error e => .error e
  | .ok (container, _blob_name) =>
    if svc.containerExists container = false then .ok (some false)
    else .ok none

/-- Embedding of `AzureStorageClient.put_string`; identical control flow to
`put`, with `create_blob_from_text` as the final SDK call. -/
def put_string (svc : BlockBlobService) (_content destination_azure_path : Bytes) :
    Except PyError (Option Bool) :=
  match path_to_container_and_blob destination_azure_path with
  | .error e => .error e
  | .ok (container, _blob_name) =>
    if svc.containerExists container = false then .ok (some false)
    else .ok none

/-- Properties of a server-side blob copy as returned by `copy_blob` /
`get_blob_properties(...).properties.copy`: a status string (`"pending"`,
`"success"`, `"aborted"`, ...) and the byte progress counter. -/
structure CopyProperties where
  status : String
  progress : Nat
  deriving DecidableEq, Repr

/-- Instance attributes that `AzureStorageClient.__init__` actually sets —
only `block_blob_service`.  Modelled from the spec: the framework `FileSystem`
base class (not under `src/`) stores no state of its own ("Storage Client:
wraps an SDK blob service handle", spec section 2), so the instance attribute
set is exactly this list.  In particular `service`, which the polling loop of
`copy` reads, is not in it. -/
def azureClientInstanceAttrs : List String := ["block_blob_service"]

/-- Embedding of the `while copy_properties.status == "pending"` loop inside
`AzureStorageClient.copy`.  Each iteration sleeps one time unit and then
evaluates `self.service.get_blob_properties(...)`: the attribute lookup of
`service` on the client happens before any SDK call, so when `service` is not
among the instance attributes the iteration raises `AttributeError`.
`polls` is the finite stream of properties successive `get_blob_properties`
calls would report; `some props` means the loop exited with `props`, and
`none` is the stand-in of the model for a copy still pending after the provided
poll responses are exhausted (the real loop would keep blocking). -/
def copyLoop (attrs : List String) :
    List CopyProperties → CopyProperties → Except PyError (Option CopyProperties)
  | polls, props =>
    if props.status = "pending" then
      if attrs.contains "service" then
        match polls with
        | [] => .ok none
        | p :: rest => copyLoop attrs rest p
      else .error .attributeError
    else .ok (some props)

/-- Embedding of `AzureStorageClient.copy`.  Path resolution of both
endpoints, the cross-container `ValueError`, then the polling loop; on a
terminal `"success"` status Python returns the pair `(1, progress)`, and on
any other terminal status it falls off the end of the function, returning
`None` (modelled as `.ok none`).  `initial` is the `CopyProperties` returned
by the `copy_blob` SDK call. -/
def copy (attrs : List String) (initial : CopyProperties) (polls : List CopyProperties)
    (source_path destination_path : Bytes) : Except PyError (Option (Nat × Nat)) :=
  match path_to_container_and_blob source_path with
  | .error e => .error e
  | .ok (src_container, _src_blob) =>
    match path_to_container_and_blob destination_path with
    | .error e => .error e
    | .ok (dst_container, _dst_blob) =>
      if src_container ≠ dst_container then .error .valueError
      else
        match copyLoop attrs polls initial with
        | .error e => .error e
        | .ok none => .ok none
        | .ok (some props) =>
          if props.status = "success" then .ok (some (1, props.progress))
          else .ok none

/-- Method names defined in the body of `class AzureStorageClient` in the
source module. -/
def azureStorageClientOwnMethods : List String :=
  ["exists", "remove", "put", "put_string", "get", "get_as_string", "copy", "move",
   "_get_azure_storage_config", "_get_azure_storage_env_variables",
   "_path_to_container_and_blob", "_is_root", "_add_path_delimiter"]

/-- Modelled from the spec: the operation surface the Storage Client inherits
from the framework `FileSystem` base class, which is not under `src/`.  Spec
section 2: "exposes exists/get/put/remove/copy/move/list operations"; no
operation named `put_multipart` or `get_key` appears anywhere in the spec. -/
def fileSystemBaseMethods : List String :=
  ["exists", "get", "put", "remove", "copy", "move", "list"]

/-- Dynamic attribute lookup of a method name on an `AzureStorageClient`
instance: the name must be defined either by the class body or by the base
class surface. -/
def clientHasMethod (m : String) : Bool :=
  azureStorageClientOwnMethods.contains m || fileSystemBaseMethods.contains m

/-- The single dynamic call made by `AtomicS3File.move_to_final_destination`:
`self.s3_client.put_multipart(self.tmp_path, self.path, **self.s3_options)`. -/
inductive UploadCall where
  | put_multipart (tmp_path path : Bytes)
  deriving DecidableEq, Repr

/-- Embedding of `AtomicS3File.move_to_final_destination`: one attribute
lookup of `put_multipart` on the storage client, followed (when the method
exists) by the call with the temp path and the target path. -/
def move_to_final_destination (tmp_path path : Bytes) : Except PyError UploadCall :=
  if clientHasMethod "put_multipart" then .ok (.put_multipart tmp_path path)
  else .error .attributeError

/-- A remote read handle (boto-style key object), identified for our purposes
with the stream of byte chunks it delivers on iteration. -/
abbrev RemoteKey := List Bytes

/-- Result of `S3Target.open`: a formatted reader over a `ReadableS3File`
wrapping the fetched key, or a formatted writer over an `AtomicS3File` for
the target path. -/
inductive OpenResult where
  | pipeReader (key : RemoteKey)
  | pipeWriter (path : Bytes)
  deriving DecidableEq, Repr

/-- Embedding of `S3Target.open`.  `hasGetKey` is the result of the dynamic
attribute lookup `self.fs.get_key` (the lookup happens before the call, so a
client without the method raises `AttributeError` regardless of blob
existence); `get_key_result` is what the call would return, with `none`
standing for a falsy result (no such object).  Mode checking mirrors
`if mode not in ("r", "w")`. -/
def targetOpen (hasGetKey : Bool) (get_key_result : Option RemoteKey)
    (path : Bytes) (mode : String) : Except PyError OpenResult :=
  if mode ≠ "r" ∧ mode ≠ "w" then .error .valueError
  else if mode = "r" then
    if hasGetKey = false then .error .attributeError
    else
      match get_key_result with
      | none => .error .fileNotFoundException
      | some key => .ok (.pipeReader key)
  else .ok (.pipeWriter path)

/-- Embedding of one `ReadableS3File.read` call.  The underlying key is read
first (its response is `f`); an empty response latches `finished`, and once
`finished` is set the adapter returns the empty byte string whatever the
underlying handle produced.  Returns the new `finished` flag and the bytes
handed to the caller. -/
def readStep (finished : Bool) (f : Bytes) : Bool × Bytes :=
  let finished' := if f = [] then true else finished
  if finished' then (finished', []) else (finished', f)

/-- A sequence of `read` calls: `responses` lists what the underlying handle
returns to each successive call (whatever sizes were requested), and the
result lists what the adapter hands back for each call. -/
def readMany (finished : Bool) : List Bytes → List Bytes
  | [] => []
  | f :: rest =>
    let r := readStep finished f
    r.2 :: readMany r.1 rest

/-- Embedding of Python `bytes.splitlines(True)` (keepends): split on
`\n`, `\r` and `\r\n`, each terminator staying attached to its line, with a
final unterminated line kept.  `splitlines.go cur s` processes `s` with `cur`
the accumulated content of the current line. -/
def splitlines (s : Bytes) : List Bytes :=
  go [] s
where
  go : Bytes → Bytes → List Bytes
  | cur, [] => if cur = [] then [] else [cur]
  | cur, '\r' :: '\n' :: rest => (cur ++ ['\r', '\n']) :: go [] rest
  | cur, '\r' :: rest => (cur ++ ['\r']) :: go [] rest
  | cur, '\n' :: rest => (cur ++ ['\n']) :: go [] rest
  | cur, c :: rest => go (cur ++ [c]) rest

/-- `os.linesep` on the POSIX platform the module targets. -/
def linesep : Bytes := ['\n']

/-- The per-line body of the `for line in chunk.splitlines(True)` loop in
`ReadableS3File.__iter__`: an unterminated line is appended to the buffer; a
terminated line is either yielded directly (empty buffer) or appended and the
whole buffer flushed as one record (`_flush_buffer` joins and clears).
Returns the new buffer and the records yielded by this line. -/
def processLine (buffer : List Bytes) (line : Bytes) : List Bytes × List Bytes :=
  if linesep.isSuffixOf line = false then (buffer ++ [line], [])
  else if buffer ≠ [] then ([], [(buffer ++ [line]).flatten])
  else ([], [line])

/-- Processing of one downloaded chunk: split it with `splitlines(True)` and
run `processLine` over the lines, accumulating yielded records. -/
def processChunk (buffer : List Bytes) (chunk : Bytes) : List Bytes × List Bytes :=
  (splitlines chunk).foldl
    (fun st line =>
      let r := processLine st.1 line
      (r.1, st.2 ++ r.2))
    (buffer, [])

/-- Embedding of the `while has_next` loop of `ReadableS3File.__iter__`:
chunks are consumed in order; at `StopIteration` the residual buffer is
flushed and yielded when non-empty. -/
def iterChunks (buffer : List Bytes) : List Bytes → List Bytes
  | [] =>
    let output := buffer.flatten
    if output = [] then [] else [output]
  | c :: rest =>
    let r := processChunk buffer c
    r.2 ++ iterChunks r.1 rest

/-- All records yielded by iterating a `ReadableS3File` whose underlying key
delivers `chunks`; the buffer starts empty (`__init__`). -/
def iterRecords (chunks : List Bytes) : List Bytes :=
  iterChunks [] chunks

/-- A service view on which every container and every blob is reported
present. -/
def svcAllPresent : BlockBlobService := ⟨fun _ => true, fun _ _ => true⟩

/-- A service view on which every container is reported present but no blob
is. -/
def svcNoBlobs : BlockBlobService := ⟨fun _ => true, fun _ _ => false⟩

/-- A concrete path whose resolved blob-name is the container root: stripping
the trailing slash leaves the single segment `c`, so the blob-name is the
empty string. -/
def rootPath : Bytes := ['c', '/']

end AzureStorage

deriving instance DecidableEq for Except

namespace AzureStorage

/-- C1 counterexample: on the concrete path `c/` the resolved blob-name is
the container root (the empty string), yet with a service that reports the
blob as absent `remove` returns `False` instead of raising
`InvalidDeleteException` — refuting the claim that the exception is raised
regardless of reported existence. -/
theorem c1_counterexample :
    path_to_container_and_blob rootPath = .ok (['c'], []) ∧
    is_root [] = true ∧
    existsB svcNoBlobs rootPath = .ok false ∧
    remove svcNoBlobs rootPath = .ok false ∧
    remove svcNoBlobs rootPath ≠ .error .invalidDeleteException := by
  refine ⟨rfl, rfl, rfl, rfl, ?_⟩
  decide

/-- C1 (amended): for every path whose resolved blob-name denotes the
container root, `remove` raises `InvalidDeleteException` exactly when
`exists(path)` reports the blob as existing; when `exists(path)` reports
false, `remove` returns `False` without raising. -/
theorem c1_remove_root (svc : BlockBlobService) (p cont bn : Bytes)
    (hres : path_to_container_and_blob p = .ok (cont, bn))
    (hroot : is_root bn = true) :
    (existsB svc p = .ok true → remove svc p = .error .invalidDeleteException) ∧
    (existsB svc p = .ok false → remove svc p = .ok false) := by
  constructor <;> intro he <;> simp [remove, he, hres, hroot]

/-- C1 witness: with every container and blob reported present, `remove` on
the root-resolving path `c/` raises `InvalidDeleteException`. -/
theorem c1_witness :
    remove svcAllPresent rootPath = .error .invalidDeleteException :=
  (c1_remove_root svcAllPresent rootPath ['c'] [] rfl rfl).1 rfl


/-- C3 counterexample: on the empty input string the path codec fails with
the untyped built-in `IndexError` raised by the subscript `path[0]`, not with
the typed `InvalidPathError` the claim names (no class of that name exists in
the module). -/
theorem c3_counterexample :
    path_to_container_and_blob [] = .error .indexError ∧
    path_to_container_and_blob [] ≠ .error .invalidPathError := by
  decide

/-- C3 (amended): on the empty input string the path codec fails with the
built-in `IndexError` coming from the out-of-range subscript `path[0]`. -/
theorem c3_empty_path_index_error :
    path_to_container_and_blob [] = .error .indexError := rfl

/-- C4: finalizing the atomic write session performs a single dynamic call to
`put_multipart` on the storage client; `AzureStorageClient` defines `put` but
no `put_multipart`, so the finalize raises `AttributeError` instead of
uploading — the code bug behind this claim. -/
theorem c4_put_multipart_missing :
    clientHasMethod "put_multipart" = false ∧
    clientHasMethod "put" = true ∧
    move_to_final_destination ['t', 'm', 'p'] ['c', '/', 'b'] = .error .attributeError := by
  decide

/-- C5: `S3Target.open` in read mode first looks up `get_key` on the client;
`AzureStorageClient` does not define `get_key`, so with the module client the
open raises `AttributeError` whether or not the blob exists.  Only for a
client that does provide `get_key` does a falsy result raise
`FileNotFoundException` and a truthy result produce the read stream over the
fetched handle — the code bug behind this claim. -/
theorem c5_get_key_missing :
    clientHasMethod "get_key" = false ∧
    targetOpen (clientHasMethod "get_key") none ['c', '/', 'b'] "r" = .error .attributeError ∧
    targetOpen true none ['c', '/', 'b'] "r" = .error .fileNotFoundException ∧
    targetOpen true (some [['x']]) ['c', '/', 'b'] "r" = .ok (.pipeReader [['x']]) := by
  decide

/-- C6: for a same-container copy whose initial server status is `"pending"`
the polling loop reads `self.service`, an attribute `__init__` never sets, so
the first poll iteration raises `AttributeError` instead of polling — the
code bug behind this claim.  When the initial status is already terminal the
claimed results do hold: `(1, progress)` for `"success"`, `None` (nothing
meaningful) for any other terminal status; a cross-container copy raises
`ValueError`. -/
theorem c6_copy_poll_attribute_error :
    copy azureClientInstanceAttrs ⟨"pending", 0⟩ [⟨"success", 5⟩]
      ['c', '/', 'x'] ['c', '/', 'y'] = .error .attributeError ∧
    copy azureClientInstanceAttrs ⟨"success", 7⟩ []
      ['c', '/', 'x'] ['c', '/', 'y'] = .ok (some (1, 7)) ∧
    copy azureClientInstanceAttrs ⟨"aborted", 7⟩ []
      ['c', '/', 'x'] ['c', '/', 'y'] = .ok none ∧
    copy azureClientInstanceAttrs ⟨"pending", 0⟩ []
      ['d', '/', 'x'] ['c', '/', 'y'] = .error .valueError := by
  decide

/-- C7: when the underlying stream delivers exactly the two chunks `ab\n`
and `cd`, iterating the readable stream adapter yields exactly those two
records, the second unterminated and emitted at stream end. -/
theorem c7_two_chunk_iteration :
    iterRecords [['a', 'b', '\n'], ['c', 'd']] = [['a', 'b', '\n'], ['c', 'd']] := by
  decide


/-- C10: whenever the destination path resolves, `put` and `put_string`
return `False` exactly when the container is missing and `None` (no value)
after a successful upload; neither can ever return `True`, so truthiness of
the return value cannot signal success. -/
theorem c10_put_never_true (svc : BlockBlobService) (lp content p cont bn : Bytes)
    (hres : path_to_container_and_blob p = .ok (cont, bn)) :
    put svc lp p = .ok (if svc.containerExists cont then none else some false) ∧
    put_string svc content p = .ok (if svc.containerExists cont then none else some false) ∧
    (∀ r : Option Bool,
      put svc lp p = .ok r ∨ put_string svc content p = .ok r → r ≠ some true) := by
  have hp : put svc lp p = .ok (if svc.containerExists cont then none else some false) := by
    simp only [put, hres]
    cases hc : svc.containerExists cont <;> simp [hc]
  have hps : put_string svc content p
      = .ok (if svc.containerExists cont then none else some false) := by
    simp only [put_string, hres]
    cases hc : svc.containerExists cont <;> simp [hc]
  refine ⟨hp, hps, ?_⟩
  intro r hr
  have : Except.ok (ε := PyError) (if svc.containerExists cont then none else some false)
      = .ok r := by
    cases hr with
    | inl h => exact hp ▸ h
    | inr h => exact hps ▸ h
  have hr' : (if svc.containerExists cont then none else some false) = r :=
    Except.ok.inj this
  cases hc : svc.containerExists cont <;> rw [hc] at hr' <;> simp at hr' <;> simp [← hr']

/-- C10 witness: at the concrete destination `c/x`, with the container
present `put` returns `None`, and the returned value is not `True`. -/
theorem c10_witness :
    put svcAllPresent ['t'] ['c', '/', 'x']
      = .ok (if svcAllPresent.containerExists ['c'] then none else some false) ∧
    put_string svcAllPresent ['s'] ['c', '/', 'x']
      = .ok (if svcAllPresent.containerExists ['c'] then none else some false) ∧
    (∀ r : Option Bool,
      put svcAllPresent ['t'] ['c', '/', 'x'] = .ok r ∨
        put_string svcAllPresent ['s'] ['c', '/', 'x'] = .ok r → r ≠ some true) :=
  c10_put_never_true svcAllPresent ['t'] ['s'] ['c', '/', 'x'] ['c'] ['x'] rfl


/-- A `read` call that hands back empty bytes leaves the adapter in the
finished state. -/
theorem readStep_empty_finished (fin : Bool) (f : Bytes)
    (h : (readStep fin f).2 = []) : (readStep fin f).1 = true := by
  by_cases hf : f = [] <;> cases fin <;> simp [readStep, hf] at h ⊢

/-- Once the adapter is finished, every later `read` hands back empty bytes,
whatever the underlying handle returns. -/
theorem readMany_finished (rs : List Bytes) :
    readMany true rs = List.replicate rs.length [] := by
  induction rs with
  | nil => rfl
  | cons f rest ih => simp [readMany, readStep, ih, List.replicate]

/-- An empty result propagates to all later read results, for any initial
value of the finished flag. -/
theorem readMany_empty_mono (fin : Bool) (rs : List Bytes) :
    ∀ i j, i ≤ j → j < rs.length → (readMany fin rs)[i]? = some [] →
      (readMany fin rs)[j]? = some [] := by
  induction rs generalizing fin with
  | nil => intro i j _ hj _; simp at hj
  | cons f rest ih =>
    intro i j hij hj hi
    match i, j with
    | 0, 0 => exact hi
    | 0, j + 1 =>
      have hhead : (readStep fin f).2 = [] := by
        simpa [readMany] using hi
      have hfin : (readStep fin f).1 = true := readStep_empty_finished _ _ hhead
      have hrest : (readMany (readStep fin f).1 rest)[j]? = some [] := by
        rw [hfin, readMany_finished]
        have hjlen : j < rest.length := by simpa using hj
        simp [List.getElem?_replicate, hjlen]
      simpa [readMany] using hrest
    | i + 1, j + 1 =>
      have hi' : (readMany (readStep fin f).1 rest)[i]? = some [] := by
        simpa [readMany] using hi
      have hrest := ih (readStep fin f).1 i j (by omega) (by simpa using hj) hi'
      simpa [readMany] using hrest

/-- C8: once a `read` call on the readable stream adapter returns the empty
byte string, every subsequent `read` call returns the empty byte string,
whatever the underlying handle would deliver to those later calls and
whatever sizes are requested (idempotent end-of-stream). -/
theorem c8_eof_idempotent (rs : List Bytes) (i j : Nat) (hij : i ≤ j)
    (hj : j < rs.length) (hi : (readMany false rs)[i]? = some []) :
    (readMany false rs)[j]? = some [] :=
  readMany_empty_mono false rs i j hij hj hi

/-- C8 witness: with underlying responses `a`, empty, `b`, the second read
hits end-of-stream and the third read returns empty despite the underlying
handle delivering `b`. -/
theorem c8_witness :
    (readMany false [['a'], [], ['b']])[2]? = some [] :=
  c8_eof_idempotent [['a'], [], ['b']] 1 2 (by decide) (by decide) (by rfl)


/-- Splitting a list with the keepends line splitter and flattening the
pieces recovers the list, for any current-line accumulator. -/
theorem splitlines_go_flatten (cur s : Bytes) :
    (splitlines.go cur s).flatten = cur ++ s := by
  induction cur, s using splitlines.go.induct with
  | case1 => simp [splitlines.go]
  | case2 cur h => simp [splitlines.go, h]
  | case3 cur rest ih => simp [splitlines.go, ih]
  | case4 cur rest h ih => simp [splitlines.go, h, ih]
  | case5 cur rest ih => simp [splitlines.go, ih]
  | case6 cur ch rest h1 h2 h3 ih => simp [splitlines.go, h1, h2, h3, ih]

/-- Keepends splitting loses no bytes. -/
theorem splitlines_flatten (s : Bytes) : (splitlines s).flatten = s := by
  simpa using splitlines_go_flatten [] s

/-- One line step of the iterator conserves bytes: what is yielded plus what
stays buffered equals what was buffered plus the line. -/
theorem processLine_flatten (buffer : List Bytes) (line : Bytes) :
    (processLine buffer line).2.flatten ++ (processLine buffer line).1.flatten
      = buffer.flatten ++ line := by
  by_cases h1 : linesep.isSuffixOf line = false
  · simp [processLine, h1]
  · by_cases h2 : buffer = []
    · simp [processLine, h1, h2]
    · simp [processLine, h1, h2]

/-- The line fold underlying `processChunk` conserves bytes. -/
theorem processLines_flatten (ls : List Bytes) :
    ∀ (buffer acc : List Bytes),
      (ls.foldl (fun st line =>
          ((processLine st.1 line).1, st.2 ++ (processLine st.1 line).2)) (buffer, acc)).2.flatten
        ++ (ls.foldl (fun st line =>
          ((processLine st.1 line).1, st.2 ++ (processLine st.1 line).2)) (buffer, acc)).1.flatten
      = acc.flatten ++ buffer.flatten ++ ls.flatten := by
  induction ls with
  | nil => intro buffer acc; simp
  | cons l ls ih =>
    intro buffer acc
    simp only [List.foldl_cons]
    rw [ih]
    have h := processLine_flatten buffer l
    simp only [List.flatten_append, List.flatten_cons, List.append_assoc]
    rw [← List.append_assoc ((processLine buffer l).2.flatten)
      ((processLine buffer l).1.flatten), h]
    simp [List.append_assoc]

/-- Chunk processing conserves bytes: yielded records plus residual buffer
equal the old buffer plus the chunk. -/
theorem processChunk_flatten (buffer : List Bytes) (chunk : Bytes) :
    (processChunk buffer chunk).2.flatten ++ (processChunk buffer chunk).1.flatten
      = buffer.flatten ++ chunk := by
  have h := processLines_flatten (splitlines chunk) buffer []
  simp only [List.flatten_nil, List.nil_append, splitlines_flatten] at h
  simpa [processChunk] using h

/-- The full iteration conserves bytes, for any starting buffer. -/
theorem iterChunks_flatten (chunks : List Bytes) :
    ∀ buffer : List Bytes,
      (iterChunks buffer chunks).flatten = buffer.flatten ++ chunks.flatten := by
  induction chunks with
  | nil =>
    intro buffer
    by_cases h : buffer.flatten = [] <;> simp [iterChunks, h]
  | cons ch rest ih =>
    intro buffer
    simp only [iterChunks, List.flatten_append, ih, List.flatten_cons]
    rw [← List.append_assoc, processChunk_flatten]
    simp [List.append_assoc]

/-- C9: for every finite sequence of byte chunks delivered by the underlying
handle, the concatenation of the records yielded by iterating the readable
stream adapter equals the concatenation of the chunks — line re-chunking
never drops, duplicates or reorders bytes. -/
theorem c9_iteration_preserves_bytes (chunks : List Bytes) :
    (iterRecords chunks).flatten = chunks.flatten := by
  simpa [iterRecords] using iterChunks_flatten chunks []

/-- Splitting a path of shape `segment / rest` where the leading segment is
non-empty and slash-free keeps the head segment whole. -/
theorem splitOn_cons_of_not_mem (x : Char) (a : Bytes) (r : Bytes)
    (ha2 : '/' ∉ x :: a) :
    (x :: (a ++ '/' :: r)).splitOn '/' = (x :: a) :: r.splitOn '/' := by
  have hmem : ∀ y ∈ x :: a, ¬((y == '/') = true) := by
    intro y hy h
    exact ha2 ((show y = '/' by simpa using h) ▸ hy)
  rw [← List.cons_append]
  exact List.splitOnP_first _ _ hmem '/' (by simp) r

/-- The codec on `container / rest` with a non-empty slash-free container
segment and a rest that is non-empty and not slash-terminated: container is
the first segment, blob-name is the rest. -/
theorem codec_append_segment (a r : Bytes) (ha : a ≠ []) (ha2 : '/' ∉ a)
    (hr : r ≠ []) (hr2 : r.getLast? ≠ some '/') :
    path_to_container_and_blob (a ++ '/' :: r) = .ok (a, r) := by
  cases a with
  | nil => exact absurd rfl ha
  | cons x a2 =>
    have hx : x ≠ '/' := fun h => ha2 (h ▸ List.mem_cons_self x a2)
    obtain ⟨cl, hcl⟩ : ∃ cl, r.getLast? = some cl := by
      cases h : r.getLast? with
      | none => exact absurd (List.getLast?_eq_none_iff.mp h) hr
      | some c => exact ⟨c, rfl⟩
    have hcl2 : cl ≠ '/' := fun h => hr2 (h ▸ hcl)
    have hlast : (x :: (a2 ++ '/' :: r)).getLast? = some cl := by
      rw [← List.cons_append, List.getLast?_append]
      rw [show ('/' :: r) = ['/'] ++ r from rfl, List.getLast?_append, hcl]
      rfl
    have hsplit := splitOn_cons_of_not_mem x a2 r ha2
    rw [List.cons_append]
    simp only [path_to_container_and_blob, if_neg hx, hlast, if_neg hcl2, hsplit]
    simp [List.intercalate_splitOn]

/-- The codec on `container /` with a non-empty slash-free container segment:
the trailing slash is stripped and the blob-name is empty. -/
theorem codec_container_slash (a : Bytes) (ha : a ≠ []) (ha2 : '/' ∉ a) :
    path_to_container_and_blob (a ++ ['/']) = .ok (a, []) := by
  cases a with
  | nil => exact absurd rfl ha
  | cons x a2 =>
    have hx : x ≠ '/' := fun h => ha2 (h ▸ List.mem_cons_self x a2)
    have hlast : (x :: (a2 ++ ['/'])).getLast? = some '/' := by
      rw [← List.cons_append]
      exact List.getLast?_concat _
    have hdrop : (x :: (a2 ++ ['/'])).dropLast = x :: a2 := by
      rw [← List.cons_append]
      exact List.dropLast_concat
    have hmem : ∀ y ∈ x :: a2, ¬((y == '/') = true) := by
      intro y hy h
      exact ha2 ((show y = '/' by simpa using h) ▸ hy)
    have hsplit : (x :: a2).splitOn '/' = [x :: a2] :=
      List.splitOnP_eq_single _ _ hmem
    rw [List.cons_append]
    simp only [path_to_container_and_blob, if_neg hx, hlast, if_pos rfl, hdrop]
    simp [hsplit, List.intercalate]

/-- C2: for non-empty slash-free segments `a`, `b`, `c`, the path codec maps
`a/b/c` to container `a` with blob-name `b/c`, and maps `a/` to container
`a` with the empty blob-name. -/
theorem c2_path_codec (a b c : Bytes)
    (ha : a ≠ []) (_hb : b ≠ []) (hc : c ≠ [])
    (ha2 : '/' ∉ a) (_hb2 : '/' ∉ b) (hc2 : '/' ∉ c) :
    path_to_container_and_blob (a ++ '/' :: (b ++ '/' :: c)) = .ok (a, b ++ '/' :: c) ∧
    path_to_container_and_blob (a ++ ['/']) = .ok (a, []) := by
  constructor
  · have hrne : b ++ '/' :: c ≠ [] := by simp
    have hlast2 : (b ++ '/' :: c).getLast? ≠ some '/' := by
      obtain ⟨cl, hcl⟩ : ∃ cl, c.getLast? = some cl := by
        cases h : c.getLast? with
        | none => exact absurd (List.getLast?_eq_none_iff.mp h) hc
        | some z => exact ⟨z, rfl⟩
      have hclmem : cl ∈ c := by
        obtain ⟨hne, heq⟩ := List.mem_getLast?_eq_getLast (l := c) (x := cl) hcl
        exact heq ▸ List.getLast_mem hne
      have hcl2 : cl ≠ '/' := fun h => hc2 (h ▸ hclmem)
      rw [List.getLast?_append]
      rw [show ('/' :: c) = ['/'] ++ c from rfl, List.getLast?_append, hcl]
      simpa using hcl2
    exact codec_append_segment a (b ++ '/' :: c) ha ha2 hrne hlast2
  · exact codec_container_slash a ha ha2

/-- C2 witness: the concrete path `a/b/c` resolves to container `a` and
blob-name `b/c`, and `a/` resolves to container `a` with empty blob-name. -/
theorem c2_witness :
    path_to_container_and_blob (['a'] ++ '/' :: (['b'] ++ '/' :: ['c']))
      = .ok (['a'], ['b'] ++ '/' :: ['c']) ∧
    path_to_container_and_blob (['a'] ++ ['/']) = .ok (['a'], []) :=
  c2_path_codec ['a'] ['b'] ['c'] (by decide) (by decide) (by decide)
    (by decide) (by decide) (by decide)

end AzureStorage
